import Mathlib

/-!
Verification of the slide-catalog and narration-cache logic of `src/app.py`
(a Streamlit lecture-presentation script), shallowly embedded in Lean.

SlideCatalog side (app.py lines 13-28, 95):
  * `extract_slide_number` : first maximal run of decimal digits in the
    path's base name, as an integer; 9999 when the base name has no digits.
  * `slide_imgs` : the discovered files stably sorted ascending by
    `extract_slide_number` (Python's `sorted` with that key).
  * `to_two_digit_slide_num` : `f"{n:02d}"` when the extracted number is
    not the sentinel 9999, otherwise `f"{idx + 2:02d}"`.
  * `locate` : Python list subscription `slide_imgs[idx]` on an `Int`
    index, including Python's negative-index semantics.

NarrationCache side (app.py lines 47-48, 107-138):
  * `get_audio` : the "Play audio narration" handler body — checks the
    `tts_cache` dict, invokes the synthesis capability when absent,
    normalises the returned payload (`content` / `audio` attribute,
    opportunistic base64 decode), stores it, and plays a truthy cached
    value; exceptions are caught and shown via `st.error`.
  * `invalidate` : `tts_cache.pop(slide_num, None)`.

Session navigation (app.py lines 31-32, 67-71, 142-147): `stepIdx` models
the sidebar jump buttons and the guarded Prev/Next handlers.
-/

namespace App

/-! ### SlideCatalog -/

/-- `os.path.basename`: the component after the last `/`. -/
def basename (path : String) : String :=
  ⟨(path.toList.reverse.takeWhile (fun c => c ≠ '/')).reverse⟩

/-- The first maximal run of decimal digits in a character list, if any
(`re.search(r"(\d+)", s)`). -/
def firstDigitRun : List Char → Option (List Char)
  | [] => none
  | c :: rest =>
    if c.isDigit then some (c :: rest.takeWhile (fun d => d.isDigit))
    else firstDigitRun rest

/-- `int` applied to a run of decimal digits. -/
def digitsToNat (cs : List Char) : Nat :=
  cs.foldl (fun a c => 10 * a + (c.toNat - 48)) 0

/-- `extract_slide_number` (app.py lines 20-22): integer value of the first
digit run of the base name, or the sentinel 9999 when there is none. -/
def extract_slide_number (path : String) : Nat :=
  match firstDigitRun (basename path).toList with
  | some run => digitsToNat run
  | none => 9999

/-- The sort-key order used by `sorted(all_files, key=extract_slide_number)`. -/
def slideOrder (a b : String) : Prop :=
  extract_slide_number a ≤ extract_slide_number b

instance : DecidableRel slideOrder := fun a b =>
  Nat.decLe (extract_slide_number a) (extract_slide_number b)

instance : IsTotal String slideOrder :=
  ⟨fun a b => Nat.le_total (extract_slide_number a) (extract_slide_number b)⟩

instance : IsTrans String slideOrder :=
  ⟨fun _ _ _ => Nat.le_trans⟩

/-- `slide_imgs` (app.py line 24): the collected files stably sorted
ascending by `extract_slide_number`. Python's `sorted` is a stable sort,
and a stable sort is extensionally unique, so the stable
`List.insertionSort` is a faithful model of it. -/
def slide_imgs (files : List String) : List String :=
  files.insertionSort slideOrder

/-- Python `f"{n:02d}"`: decimal digits, zero-padded to minimum width 2. -/
def fmt02 (n : Nat) : String :=
  if (toString n).length < 2 then "0" ++ toString n else toString n

/-- `to_two_digit_slide_num` (app.py lines 26-28): the extracted number
zero-padded, or `idx + 2` zero-padded for the sentinel (the fallback
assumes the deck starts at slide 2). -/
def to_two_digit_slide_num (path : String) (idx : Nat) : String :=
  let n := extract_slide_number path
  if n ≠ 9999 then fmt02 n else fmt02 (idx + 2)

/-- The display ids of the sorted catalog, in order (`enumerate(slide_imgs)`
feeding `to_two_digit_slide_num`, as in the sidebar loop). -/
def displayIds (files : List String) : List String :=
  (slide_imgs files).enum.map (fun p => to_two_digit_slide_num p.2 p.1)

/-- Python list subscription `entries[index]` on an `Int` index
(app.py line 95): a value for indices in `[-len, len)` (negative indices
count from the end), `none` (an `IndexError`) otherwise. -/
def locate (entries : List String) (index : Int) : Option String :=
  if 0 ≤ index ∧ index < (entries.length : Int) then
    entries.get? index.toNat
  else if -(entries.length : Int) ≤ index ∧ index < 0 then
    entries.get? ((entries.length : Int) + index).toNat
  else
    none

/-! ### NarrationCache (the `tts_cache` handler) -/

/-- A value of the `content` / `audio` attribute of the SDK's speech
response object: either raw bytes or a (possibly base64) string. -/
inductive AVal where
  | bytes (bs : List Nat)
  | str (s : String)
deriving DecidableEq

/-- The SDK speech response: an optional `content` attribute and an
optional `audio` attribute (`none` models both an absent attribute and an
attribute holding Python `None`, which the code treats identically). -/
structure Speech where
  content : Option AVal
  audio : Option AVal
deriving DecidableEq

/-- A `tts_cache` value: the stored `audio_bytes`, which the code can set
to Python `None` (modelled as `none`) when the response exposes neither
attribute. -/
abbrev CacheVal := Option (List Nat)

/-- The `tts_cache` dict (app.py line 48): `slide_num -> audio_bytes`. -/
abbrev Cache := List (String × CacheVal)

/-- The 6-bit value of a base64 alphabet character, if any. -/
def b64val (c : Char) : Option Nat :=
  if 'A' ≤ c ∧ c ≤ 'Z' then some (c.toNat - 65)
  else if 'a' ≤ c ∧ c ≤ 'z' then some (c.toNat - 97 + 26)
  else if '0' ≤ c ∧ c ≤ '9' then some (c.toNat - 48 + 52)
  else if c = '+' then some 62
  else if c = '/' then some 63
  else none

/-- `binascii.a2b_base64` in its default non-strict mode, walking the
characters as CPython does with the position inside the current quad
(0-3), the carried bits, a pad counter, and the output bytes accumulated
in reverse. A `'='` that completes a quad of two or three data characters
ends the input — everything after it is ignored, so excess padding
(`"TQ==="`) and data after padding (`"TQ==TQ=="`) decode without error; a
`'='` earlier in a quad is skipped, so `"===="` decodes to the empty byte
string; characters outside the alphabet are skipped (and a data character
resets the pad counter); a final partial quad raises (`none`). -/
def a2b_base64 : List Char → Nat → Nat → Nat → List Nat → Option (List Nat)
  | [], quadPos, _, _, out => if quadPos = 0 then some out.reverse else none
  | ch :: rest, quadPos, leftchar, pads, out =>
    if ch = '=' then
      if 2 ≤ quadPos then
        if 4 ≤ quadPos + (pads + 1) then some out.reverse
        else a2b_base64 rest quadPos leftchar (pads + 1) out
      else a2b_base64 rest quadPos leftchar pads out
    else
      match b64val ch with
      | none => a2b_base64 rest quadPos leftchar pads out
      | some v =>
        match quadPos with
        | 0 => a2b_base64 rest 1 v 0 out
        | 1 => a2b_base64 rest 2 (v % 16) 0 ((leftchar * 4 + v / 16) :: out)
        | 2 => a2b_base64 rest 3 (v % 4) 0 ((leftchar * 16 + v / 4) :: out)
        | _ => a2b_base64 rest 0 0 0 ((leftchar * 64 + v) :: out)

/-- `base64.b64decode` on a `str` with the default `validate=False`: the
string is ASCII-encoded (a non-ASCII character raises `ValueError`), then
handed to the non-strict `binascii.a2b_base64`; `none` models a raised
exception. -/
def b64decode (s : String) : Option (List Nat) :=
  if s.toList.all (fun c => c.toNat < 128) then a2b_base64 s.toList 0 0 0 []
  else none

/-- The payload normalisation of app.py lines 124-130: take `content` if
present (not `None`), else `audio`; base64-decode a string value (a decode
failure raises, propagating to the handler's `except`); raw bytes and a
missing payload (`None`) pass through unchanged. -/
def normalizeAudio (sp : Speech) : Except String CacheVal :=
  let ab := match sp.content with
            | some v => some v
            | none => sp.audio
  match ab with
  | some (AVal.str s) =>
    match b64decode s with
    | some bs => Except.ok (some bs)
    | none => Except.error "binascii.Error: invalid base64"
  | some (AVal.bytes bs) => Except.ok (some bs)
  | none => Except.ok none

/-- Python dict assignment `cache[k] = v` on an association list. -/
def dictSet (cache : Cache) (k : String) (v : CacheVal) : Cache :=
  if (cache.lookup k).isSome then
    cache.map (fun p => if p.1 = k then (k, v) else p)
  else
    cache ++ [(k, v)]

/-- Everything a single run of the "Play audio narration" handler does:
the resulting cache, how many times the synthesis capability was invoked,
the `st.error` message if one was shown, and the bytes passed to
`st.audio` if any were played. -/
structure GetAudioResult where
  cache : Cache
  calls : Nat
  error : Option String
  played : Option (List Nat)
deriving DecidableEq

/-- The "Play audio narration" handler body (app.py lines 111-135), with
the hosted TTS call abstracted as `fn : text → Except err Speech`:
if `slide_num` is not cached, invoke `fn`, normalise and store the result
(an exception anywhere in the `try` leaves the cache untouched and shows
`st.error`); then play the cached value if it is present and truthy. -/
def get_audio (cache : Cache) (id : String) (text : String)
    (fn : String → Except String Speech) : GetAudioResult :=
  let step : Cache × Nat × Option String :=
    if (cache.lookup id).isSome then (cache, 0, none)
    else
      match fn text with
      | Except.error e => (cache, 1, some ("Audio synthesis failed: " ++ e))
      | Except.ok sp =>
        match normalizeAudio sp with
        | Except.error e => (cache, 1, some ("Audio synthesis failed: " ++ e))
        | Except.ok v => (dictSet cache id v, 1, none)
  let played : Option (List Nat) :=
    match step.1.lookup id with
    | some (some bs) => if bs = [] then none else some bs
    | _ => none
  ⟨step.1, step.2.1, step.2.2, played⟩

/-- The "Regenerate audio" handler's cache effect (app.py line 137):
`tts_cache.pop(slide_num, None)`. -/
def invalidate (cache : Cache) (id : String) : Cache :=
  cache.filter (fun p => p.1 ≠ id)

/-! ### Session index navigation -/

/-- One user interaction that can change `st.session_state.idx`: a sidebar
jump button (`nav_i`, app.py lines 67-71), Prev, or Next (lines 142-147). -/
inductive Ev where
  | navTo (i : Nat)
  | prev
  | next

/-- The effect of one interaction on the current index, for a deck of `n`
slides: sidebar buttons assign their slide's position; Prev decrements only
when `idx > 0`; Next increments only when `idx < n - 1`. -/
def stepIdx (n : Nat) (idx : Nat) : Ev → Nat
  | Ev.navTo i => i
  | Ev.prev => if 0 < idx then idx - 1 else idx
  | Ev.next => if idx + 1 < n then idx + 1 else idx

/-- The session index after a sequence of interactions, starting from the
initial value 0 (app.py lines 31-32). -/
def runIdx (n : Nat) (evs : List Ev) : Nat :=
  evs.foldl (stepIdx n) 0

/-! ### Helper lemmas -/

theorem filter_ne_cons_self (rest : Cache) (id : String) (v : CacheVal) :
    List.filter (fun p => p.1 ≠ id) (((id, v) : String × CacheVal) :: rest)
      = List.filter (fun p => p.1 ≠ id) rest := by
  rw [List.filter_cons, if_neg]
  simp

theorem filter_ne_cons_other (rest : Cache) (id k : String) (v : CacheVal)
    (h : k ≠ id) :
    List.filter (fun p => p.1 ≠ id) (((k, v) : String × CacheVal) :: rest)
      = (k, v) :: List.filter (fun p => p.1 ≠ id) rest := by
  rw [List.filter_cons, if_pos]
  simpa using h

theorem lookup_invalidate_self (cache : Cache) (id : String) :
    (invalidate cache id).lookup id = none := by
  unfold invalidate
  induction cache with
  | nil => rfl
  | cons p rest ih =>
    obtain ⟨k, v⟩ := p
    by_cases h : k = id
    · subst h
      rw [filter_ne_cons_self]
      exact ih
    · rw [filter_ne_cons_other rest id k v h, List.lookup_cons]
      have hbeq : (id == k) = false :=
        beq_eq_false_iff_ne.mpr (fun hh => h hh.symm)
      rw [hbeq]
      exact ih

theorem lookup_invalidate_ne (cache : Cache) (id : String) :
    ∀ k, k ≠ id → (invalidate cache id).lookup k = cache.lookup k := by
  intro k hk
  unfold invalidate
  induction cache with
  | nil => rfl
  | cons p rest ih =>
    obtain ⟨j, v⟩ := p
    by_cases h : j = id
    · subst h
      rw [filter_ne_cons_self, List.lookup_cons]
      have hbeq : (k == j) = false := beq_eq_false_iff_ne.mpr hk
      rw [hbeq]
      exact ih
    · rw [filter_ne_cons_other rest id j v h, List.lookup_cons, List.lookup_cons]
      cases hbeq : (k == j) with
      | true => rfl
      | false => exact ih

theorem invalidate_of_lookup_none (cache : Cache) (id : String)
    (h : cache.lookup id = none) : invalidate cache id = cache := by
  unfold invalidate
  induction cache with
  | nil => rfl
  | cons p rest ih =>
    obtain ⟨k, v⟩ := p
    rw [List.lookup_cons] at h
    cases hbeq : (id == k) with
    | true => rw [hbeq] at h; cases h
    | false =>
      rw [hbeq] at h
      have hk : k ≠ id := fun hh => (beq_eq_false_iff_ne.mp hbeq) hh.symm
      rw [filter_ne_cons_other rest id k v hk, ih h]

theorem lookup_append_single (cache : Cache) (id : String) (v : CacheVal)
    (h : cache.lookup id = none) :
    (cache ++ [(id, v)]).lookup id = some v := by
  induction cache with
  | nil => simp [List.lookup_cons]
  | cons p rest ih =>
    obtain ⟨k, w⟩ := p
    rw [List.lookup_cons] at h
    rw [List.cons_append, List.lookup_cons]
    cases hbeq : (id == k) with
    | true => rw [hbeq] at h; cases h
    | false => rw [hbeq] at h; exact ih h

theorem lookup_dictSet_fresh (cache : Cache) (id : String) (v : CacheVal)
    (h : cache.lookup id = none) :
    (dictSet cache id v).lookup id = some v := by
  unfold dictSet
  rw [h]
  simp only [Option.isSome_none, Bool.false_eq_true, if_false]
  exact lookup_append_single cache id v h

/-- The bytes the handler's final truthiness check plays for a cached
value (app.py line 134-135): a present, non-empty byte string. -/
def playedOf (v : CacheVal) : Option (List Nat) :=
  match v with
  | some bs => if bs = [] then none else some bs
  | none => none

theorem get_audio_cached (cache : Cache) (id text : String)
    (fn : String → Except String Speech) (v : CacheVal)
    (h : cache.lookup id = some v) :
    get_audio cache id text fn = ⟨cache, 0, none, playedOf v⟩ := by
  cases v <;> simp [get_audio, playedOf, h]

theorem get_audio_fresh_fail (cache : Cache) (id text : String)
    (fn : String → Except String Speech) (e : String)
    (hfresh : cache.lookup id = none) (hfail : fn text = Except.error e) :
    get_audio cache id text fn =
      ⟨cache, 1, some ("Audio synthesis failed: " ++ e), none⟩ := by
  simp [get_audio, hfresh, hfail]

theorem get_audio_fresh_norm_fail (cache : Cache) (id text : String)
    (fn : String → Except String Speech) (sp : Speech) (e : String)
    (hfresh : cache.lookup id = none) (hok : fn text = Except.ok sp)
    (hnorm : normalizeAudio sp = Except.error e) :
    get_audio cache id text fn =
      ⟨cache, 1, some ("Audio synthesis failed: " ++ e), none⟩ := by
  simp [get_audio, hfresh, hok, hnorm]

theorem get_audio_fresh_ok (cache : Cache) (id text : String)
    (fn : String → Except String Speech) (sp : Speech) (v : CacheVal)
    (hfresh : cache.lookup id = none) (hok : fn text = Except.ok sp)
    (hnorm : normalizeAudio sp = Except.ok v) :
    get_audio cache id text fn = ⟨dictSet cache id v, 1, none, playedOf v⟩ := by
  cases v <;>
    simp [get_audio, playedOf, hfresh, hok, hnorm,
      lookup_dictSet_fresh cache id _ hfresh]

theorem calls_get_audio_fresh (cache : Cache) (id text : String)
    (fn : String → Except String Speech)
    (hfresh : cache.lookup id = none) :
    (get_audio cache id text fn).calls = 1 := by
  cases hf : fn text with
  | error e => rw [get_audio_fresh_fail cache id text fn e hfresh hf]
  | ok sp =>
    cases hn : normalizeAudio sp with
    | error e => rw [get_audio_fresh_norm_fail cache id text fn sp e hfresh hf hn]
    | ok v => rw [get_audio_fresh_ok cache id text fn sp v hfresh hf hn]

theorem stepIdx_lt (n idx : Nat) (ev : Ev) (hidx : idx < n)
    (hev : ∀ i, ev = Ev.navTo i → i < n) :
    stepIdx n idx ev < n := by
  cases ev with
  | navTo i => exact hev i rfl
  | prev =>
    show (if 0 < idx then idx - 1 else idx) < n
    split <;> omega
  | next =>
    show (if idx + 1 < n then idx + 1 else idx) < n
    split <;> omega

theorem foldl_stepIdx_lt (n : Nat) (evs : List Ev) (idx : Nat) (hidx : idx < n)
    (hnav : ∀ i, Ev.navTo i ∈ evs → i < n) :
    evs.foldl (stepIdx n) idx < n := by
  induction evs generalizing idx with
  | nil => simpa using hidx
  | cons ev rest ih =>
    rw [List.foldl_cons]
    apply ih
    · apply stepIdx_lt n idx ev hidx
      intro i hi
      exact hnav i (hi ▸ List.mem_cons_self ev rest)
    · intro i hi
      exact hnav i (List.mem_cons_of_mem ev hi)

end App

/-! ### Claims -/

/-- C1. At-most-once synthesis: on a `display_id` with no cached entry, a
`get_audio` call whose synthesis succeeds (normalising to non-empty raw
bytes `bs`) invokes the synthesis capability exactly once, stores `bs` in
the cache, and plays it; and on any cache in which that id maps to `bs`, a
`get_audio` call with any narration text and any synthesis function makes
zero synthesis calls, leaves the cache unchanged, and returns the
previously cached bytes unchanged. -/
theorem c1_at_most_once_synthesis (cache : App.Cache) (id text : String)
    (fn : String → Except String App.Speech) (sp : App.Speech) (bs : List Nat)
    (hfresh : cache.lookup id = none)
    (hok : fn text = Except.ok sp)
    (hnorm : App.normalizeAudio sp = Except.ok (some bs))
    (hbs : bs ≠ []) :
    (App.get_audio cache id text fn).calls = 1 ∧
    (App.get_audio cache id text fn).cache.lookup id = some (some bs) ∧
    (App.get_audio cache id text fn).played = some bs ∧
    (∀ (c : App.Cache) (t : String) (g : String → Except String App.Speech),
      c.lookup id = some (some bs) →
      (App.get_audio c id t g).calls = 0 ∧
      (App.get_audio c id t g).cache = c ∧
      (App.get_audio c id t g).played = some bs) := by
  have h := App.get_audio_fresh_ok cache id text fn sp (some bs) hfresh hok hnorm
  rw [h]
  refine ⟨rfl, App.lookup_dictSet_fresh cache id (some bs) hfresh, ?_, ?_⟩
  · simp [App.playedOf, hbs]
  · intro c t g hc
    rw [App.get_audio_cached c id t g (some bs) hc]
    exact ⟨rfl, rfl, by simp [App.playedOf, hbs]⟩

theorem c1_witness :
    (App.get_audio [] "01" "hello"
      (fun _ => Except.ok ⟨some (App.AVal.bytes [1, 2, 3]), none⟩)).calls = 1 ∧
    (App.get_audio [] "01" "hello"
      (fun _ => Except.ok ⟨some (App.AVal.bytes [1, 2, 3]), none⟩)).cache.lookup "01"
      = some (some [1, 2, 3]) ∧
    (App.get_audio [] "01" "hello"
      (fun _ => Except.ok ⟨some (App.AVal.bytes [1, 2, 3]), none⟩)).played
      = some [1, 2, 3] ∧
    (App.get_audio [("01", some [1, 2, 3])] "01" "other text"
      (fun _ => Except.error "down")).calls = 0 ∧
    (App.get_audio [("01", some [1, 2, 3])] "01" "other text"
      (fun _ => Except.error "down")).played = some [1, 2, 3] := by
  have h := c1_at_most_once_synthesis [] "01" "hello"
    (fun _ => Except.ok ⟨some (App.AVal.bytes [1, 2, 3]), none⟩)
    ⟨some (App.AVal.bytes [1, 2, 3]), none⟩ [1, 2, 3] rfl rfl rfl (by decide)
  have h2 := h.2.2.2 [("01", some [1, 2, 3])] "other text"
    (fun _ => Except.error "down") rfl
  exact ⟨h.1, h.2.1, h.2.2.1, h2.1, h2.2.2⟩

/-- C2. Synthesis-failure atomicity: when the synthesis capability fails on
a `get_audio` call for an uncached `display_id`, the cache is unchanged (so
that id is still uncached and every other id's entry is untouched), the
failure is surfaced as a recoverable error message (the handler catches the
exception and shows `st.error`; nothing is played and the session state
stays usable), and any subsequent `get_audio` call for that id invokes the
synthesis capability again. -/
theorem c2_synthesis_failure_atomicity (cache : App.Cache) (id text e : String)
    (fn : String → Except String App.Speech)
    (hfresh : cache.lookup id = none)
    (hfail : fn text = Except.error e) :
    (App.get_audio cache id text fn).cache = cache ∧
    (App.get_audio cache id text fn).cache.lookup id = none ∧
    (∀ k, (App.get_audio cache id text fn).cache.lookup k = cache.lookup k) ∧
    (App.get_audio cache id text fn).calls = 1 ∧
    (App.get_audio cache id text fn).error
      = some ("Audio synthesis failed: " ++ e) ∧
    (App.get_audio cache id text fn).played = none ∧
    (∀ (t : String) (g : String → Except String App.Speech),
      (App.get_audio (App.get_audio cache id text fn).cache id t g).calls = 1) := by
  rw [App.get_audio_fresh_fail cache id text fn e hfresh hfail]
  refine ⟨rfl, hfresh, fun k => rfl, rfl, rfl, rfl, ?_⟩
  intro t g
  exact App.calls_get_audio_fresh cache id t g hfresh

theorem c2_witness :
    (App.get_audio [("02", some [9])] "01" "hello"
      (fun _ => Except.error "boom")).cache = [("02", some [9])] ∧
    (App.get_audio [("02", some [9])] "01" "hello"
      (fun _ => Except.error "boom")).cache.lookup "01" = none ∧
    (App.get_audio [("02", some [9])] "01" "hello"
      (fun _ => Except.error "boom")).cache.lookup "02" = some (some [9]) ∧
    (App.get_audio [("02", some [9])] "01" "hello"
      (fun _ => Except.error "boom")).calls = 1 ∧
    (App.get_audio [("02", some [9])] "01" "hello"
      (fun _ => Except.error "boom")).error
      = some ("Audio synthesis failed: " ++ "boom") ∧
    (App.get_audio (App.get_audio [("02", some [9])] "01" "hello"
      (fun _ => Except.error "boom")).cache "01" "hello"
      (fun _ => Except.error "boom")).calls = 1 := by
  have h := c2_synthesis_failure_atomicity [("02", some [9])] "01" "hello" "boom"
    (fun _ => Except.error "boom") rfl rfl
  exact ⟨h.1, h.2.1, h.2.2.1 "02", h.2.2.2.1, h.2.2.2.2.1,
    h.2.2.2.2.2.2 "hello" (fun _ => Except.error "boom")⟩

/-- C6. Invalidate semantics: `invalidate` (the Regenerate handler's
`tts_cache.pop(slide_num, None)`) removes any entry for the id, leaves every
other id's entry unchanged, is a no-op rather than an error when no entry
exists, and the next `get_audio` call for that id invokes the synthesis
capability exactly once, regardless of prior cache state. -/
theorem c6_invalidate_semantics (cache : App.Cache) (id : String) :
    (App.invalidate cache id).lookup id = none ∧
    (∀ k, k ≠ id → (App.invalidate cache id).lookup k = cache.lookup k) ∧
    (cache.lookup id = none → App.invalidate cache id = cache) ∧
    (∀ (t : String) (fn : String → Except String App.Speech),
      (App.get_audio (App.invalidate cache id) id t fn).calls = 1) := by
  refine ⟨App.lookup_invalidate_self cache id, App.lookup_invalidate_ne cache id,
    App.invalidate_of_lookup_none cache id, ?_⟩
  intro t fn
  exact App.calls_get_audio_fresh (App.invalidate cache id) id t fn
    (App.lookup_invalidate_self cache id)

theorem c6_witness :
    (App.invalidate [("01", some [7]), ("02", some [9])] "01").lookup "01"
      = none ∧
    (App.invalidate [("01", some [7]), ("02", some [9])] "01").lookup "02"
      = some (some [9]) ∧
    App.invalidate [("02", some [9])] "01" = [("02", some [9])] ∧
    (App.get_audio (App.invalidate [("01", some [7]), ("02", some [9])] "01")
      "01" "hello" (fun _ => Except.error "down")).calls = 1 := by
  have h := c6_invalidate_semantics [("01", some [7]), ("02", some [9])] "01"
  have h2 := c6_invalidate_semantics [("02", some [9])] "01"
  exact ⟨h.1, h.2.1 "02" (by decide), h2.2.2.1 (by decide),
    h.2.2.2 "hello" (fun _ => Except.error "down")⟩

/-- C3 counterexample. The claim says entries whose base name contains no
digits sort after all numbered entries; but a numbered entry whose extracted
integer exceeds the sentinel value 9999 sorts after a digit-free entry:
with `cover.png` (no digits, sentinel 9999) collected before
`slide_10000.png` (ordinal 10000), `discover` keeps `cover.png` first. -/
theorem c3_counterexample :
    App.slide_imgs ["slides/cover.png", "slides/slide_10000.png"]
      = ["slides/cover.png", "slides/slide_10000.png"] ∧
    App.firstDigitRun (App.basename "slides/cover.png").toList = none ∧
    App.extract_slide_number "slides/slide_10000.png" = 10000 := by
  decide

/-- C3 (amended). Discovery ordering: `slide_imgs` is a permutation of the
collected resources sorted ascending by ordinal, where the ordinal of a
base name with no digits is the sentinel 9999 — so digit-free entries sort
after all entries with ordinal below 9999 (but not after entries with
larger ordinals) — and entries with equal ordinals keep their original
collection order (the sort is stable). -/
theorem c3_discovery_ordering_amended (files : List String) :
    List.Pairwise App.slideOrder (App.slide_imgs files) ∧
    (App.slide_imgs files).Perm files ∧
    (∀ a b : String,
      App.extract_slide_number a = App.extract_slide_number b →
      [a, b].Sublist files → [a, b].Sublist (App.slide_imgs files)) ∧
    (∀ p : String, App.firstDigitRun (App.basename p).toList = none →
      App.extract_slide_number p = 9999) := by
  refine ⟨?_, ?_, ?_, ?_⟩
  · exact List.sorted_insertionSort App.slideOrder files
  · exact List.perm_insertionSort App.slideOrder files
  · intro a b hab hsub
    have hle : App.slideOrder a b := Nat.le_of_eq hab
    exact List.pair_sublist_insertionSort hle hsub
  · intro p hp
    unfold App.extract_slide_number
    rw [hp]

theorem c3_witness :
    ["slides/slide_1.png", "slides/slide_01.png"].Sublist
      (App.slide_imgs ["slides/slide_1.png", "slides/slide_01.png"]) ∧
    App.extract_slide_number "slides/cover.png" = 9999 := by
  have h := c3_discovery_ordering_amended
    ["slides/slide_1.png", "slides/slide_01.png"]
  have h2 := c3_discovery_ordering_amended ["slides/cover.png"]
  exact ⟨h.2.2.1 "slides/slide_1.png" "slides/slide_01.png" (by decide)
      (List.Sublist.refl _),
    h2.2.2.2 "slides/cover.png" (by decide)⟩

/-- C4 counterexample. The claim says a synthesis result that cannot be
normalised to raw bytes leads to a recoverable error and no cache entry;
but when the speech object exposes neither a `content` nor an `audio`
attribute, the handler stores `None` under the id (a cache entry *is*
created), shows no error, and plays nothing. -/
theorem c4_counterexample :
    App.get_audio [] "01" "hello" (fun _ => Except.ok ⟨none, none⟩)
      = ⟨[("01", none)], 1, none, none⟩ ∧
    (App.get_audio [] "01" "hello"
      (fun _ => Except.ok ⟨none, none⟩)).cache.lookup "01" = some none ∧
    (App.get_audio [] "01" "hello"
      (fun _ => Except.ok ⟨none, none⟩)).error = none := by
  decide

/-- C4 (amended). Payload normalisation: for an uncached id, when the
synthesis result carries a string payload (in `content`, or in `audio` with
`content` absent), `get_audio` base64-decodes it with Python's non-strict
decoder and stores only the decoded raw bytes; a string the decoder rejects
(a trailing partial quad, such as a lone data character, or a non-ASCII
string) raises, is caught, and leaves no cache entry; but a result with
neither `content` nor `audio` is stored as a `None` entry for the id with
no error raised (and nothing played), rather than being rejected. -/
theorem c4_payload_normalization_amended (cache : App.Cache) (id text : String)
    (fn : String → Except String App.Speech) (sp : App.Speech)
    (hfresh : cache.lookup id = none)
    (hok : fn text = Except.ok sp) :
    (∀ (s : String) (bs : List Nat),
      (sp.content = some (App.AVal.str s) ∨
        (sp.content = none ∧ sp.audio = some (App.AVal.str s))) →
      App.b64decode s = some bs →
      (App.get_audio cache id text fn).cache.lookup id = some (some bs) ∧
      (App.get_audio cache id text fn).error = none) ∧
    (∀ s : String,
      (sp.content = some (App.AVal.str s) ∨
        (sp.content = none ∧ sp.audio = some (App.AVal.str s))) →
      App.b64decode s = none →
      (App.get_audio cache id text fn).cache = cache ∧
      (App.get_audio cache id text fn).error.isSome = true) ∧
    (sp.content = none → sp.audio = none →
      (App.get_audio cache id text fn).cache.lookup id = some none ∧
      (App.get_audio cache id text fn).error = none ∧
      (App.get_audio cache id text fn).played = none) := by
  refine ⟨?_, ?_, ?_⟩
  · intro s bs hs hdec
    have hnorm : App.normalizeAudio sp = Except.ok (some bs) := by
      rcases hs with hc | ⟨hc, ha⟩
      · simp [App.normalizeAudio, hc, hdec]
      · simp [App.normalizeAudio, hc, ha, hdec]
    rw [App.get_audio_fresh_ok cache id text fn sp (some bs) hfresh hok hnorm]
    exact ⟨App.lookup_dictSet_fresh cache id (some bs) hfresh, rfl⟩
  · intro s hs hdec
    have hnorm : App.normalizeAudio sp
        = Except.error "binascii.Error: invalid base64" := by
      rcases hs with hc | ⟨hc, ha⟩
      · simp [App.normalizeAudio, hc, hdec]
      · simp [App.normalizeAudio, hc, ha, hdec]
    rw [App.get_audio_fresh_norm_fail cache id text fn sp _ hfresh hok hnorm]
    exact ⟨rfl, rfl⟩
  · intro hc ha
    have hnorm : App.normalizeAudio sp = Except.ok none := by
      simp [App.normalizeAudio, hc, ha]
    rw [App.get_audio_fresh_ok cache id text fn sp none hfresh hok hnorm]
    exact ⟨App.lookup_dictSet_fresh cache id none hfresh, rfl, rfl⟩

theorem c4_witness :
    (App.get_audio [] "05" "hello"
      (fun _ => Except.ok ⟨some (App.AVal.str "TQ=="), none⟩)).cache.lookup "05"
      = some (some [77]) ∧
    (App.get_audio [] "05" "hello"
      (fun _ => Except.ok ⟨some (App.AVal.str "TQ==="), none⟩)).cache.lookup "05"
      = some (some [77]) ∧
    (App.get_audio [] "05" "hello"
      (fun _ => Except.ok ⟨some (App.AVal.str "TQ==TQ=="), none⟩)).cache.lookup "05"
      = some (some [77]) ∧
    (App.get_audio [] "05" "hello"
      (fun _ => Except.ok ⟨some (App.AVal.str "===="), none⟩)).cache.lookup "05"
      = some (some []) ∧
    (App.get_audio [] "05" "hello"
      (fun _ => Except.ok ⟨some (App.AVal.str "not-base64!"), none⟩)).cache
      = [] ∧
    (App.get_audio [] "05" "hello"
      (fun _ => Except.ok ⟨some (App.AVal.str "not-base64!"), none⟩)).error.isSome
      = true ∧
    (App.get_audio [] "05" "hello"
      (fun _ => Except.ok ⟨none, none⟩)).cache.lookup "05" = some none := by
  have h1 := c4_payload_normalization_amended [] "05" "hello"
    (fun _ => Except.ok ⟨some (App.AVal.str "TQ=="), none⟩)
    ⟨some (App.AVal.str "TQ=="), none⟩ rfl rfl
  have h1a := c4_payload_normalization_amended [] "05" "hello"
    (fun _ => Except.ok ⟨some (App.AVal.str "TQ==="), none⟩)
    ⟨some (App.AVal.str "TQ==="), none⟩ rfl rfl
  have h1b := c4_payload_normalization_amended [] "05" "hello"
    (fun _ => Except.ok ⟨some (App.AVal.str "TQ==TQ=="), none⟩)
    ⟨some (App.AVal.str "TQ==TQ=="), none⟩ rfl rfl
  have h1c := c4_payload_normalization_amended [] "05" "hello"
    (fun _ => Except.ok ⟨some (App.AVal.str "===="), none⟩)
    ⟨some (App.AVal.str "===="), none⟩ rfl rfl
  have h2 := c4_payload_normalization_amended [] "05" "hello"
    (fun _ => Except.ok ⟨some (App.AVal.str "not-base64!"), none⟩)
    ⟨some (App.AVal.str "not-base64!"), none⟩ rfl rfl
  have h3 := c4_payload_normalization_amended [] "05" "hello"
    (fun _ => Except.ok ⟨none, none⟩) ⟨none, none⟩ rfl rfl
  have h2x := h2.2.1 "not-base64!" (Or.inl rfl) (by decide)
  exact ⟨(h1.1 "TQ==" [77] (Or.inl rfl) (by decide)).1,
    (h1a.1 "TQ===" [77] (Or.inl rfl) (by decide)).1,
    (h1b.1 "TQ==TQ==" [77] (Or.inl rfl) (by decide)).1,
    (h1c.1 "====" [] (Or.inl rfl) (by decide)).1,
    h2x.1, h2x.2, (h3.2.2 rfl rfl).1⟩

/-- C5 counterexample. The claim says every entry whose base name contains
digits has `display_id` equal to its ordinal zero-padded to two digits, a
2-character string. But `slide_100.png` (ordinal 100) yields the
3-character id `"100"`, and `slide_9999.png` — whose base name contains
digits — collides with the sentinel and receives the positional fallback
`"03"` rather than `"9999"`. -/
theorem c5_counterexample :
    App.displayIds ["slides/slide_100.png", "slides/slide_9999.png"]
      = ["100", "03"] ∧
    (App.to_two_digit_slide_num "slides/slide_100.png" 0).length = 3 ∧
    App.to_two_digit_slide_num "slides/slide_9999.png" 1 ≠ "9999" := by
  decide

/-- C5 (amended). Two-digit display id: for every entry whose base name
contains digits and whose extracted ordinal is not the sentinel 9999, the
display id is the ordinal zero-padded to minimum width two — an exactly
2-character string whenever the ordinal is below 100; and the scenario
slide_2.png, slide_10.png, slide_1.png yields the sorted ordinals
[1, 2, 10] with display ids ["01", "02", "10"]. -/
theorem c5_two_digit_display_id_amended :
    (∀ (path : String) (idx : Nat) (run : List Char),
      App.firstDigitRun (App.basename path).toList = some run →
      App.digitsToNat run ≠ 9999 →
      App.to_two_digit_slide_num path idx = App.fmt02 (App.digitsToNat run)) ∧
    (∀ n : Nat, n < 100 → (App.fmt02 n).length = 2) ∧
    App.slide_imgs ["slides/slide_2.png", "slides/slide_10.png", "slides/slide_1.png"]
      = ["slides/slide_1.png", "slides/slide_2.png", "slides/slide_10.png"] ∧
    (App.slide_imgs ["slides/slide_2.png", "slides/slide_10.png", "slides/slide_1.png"]).map
      App.extract_slide_number = [1, 2, 10] ∧
    App.displayIds ["slides/slide_2.png", "slides/slide_10.png", "slides/slide_1.png"]
      = ["01", "02", "10"] := by
  refine ⟨?_, by decide, by decide, by decide, by decide⟩
  intro path idx run h hne
  have hx : App.extract_slide_number path = App.digitsToNat run := by
    unfold App.extract_slide_number
    rw [h]
  simp [App.to_two_digit_slide_num, hx, hne]

theorem c5_witness :
    App.to_two_digit_slide_num "slides/slide_42.png" 0
      = App.fmt02 (App.digitsToNat ['4', '2']) ∧
    (App.fmt02 5).length = 2 := by
  have h := c5_two_digit_display_id_amended
  exact ⟨h.1 "slides/slide_42.png" 0 ['4', '2'] (by decide) (by decide),
    h.2.1 5 (by decide)⟩

/-- C7. Fallback display id: an entry whose base name contains no digits
gets display id `(position + 2)` zero-padded to two digits (the offset is
the constant 2 in this revision, from `f"{idx + 2:02d}"`); in the scenario
with `cover.png` and `slide_3.png`, `cover.png` sorts after `slide_3.png`
and, at index 1, receives display id `"03"`. -/
theorem c7_fallback_display_id :
    (∀ (path : String) (idx : Nat),
      App.firstDigitRun (App.basename path).toList = none →
      App.to_two_digit_slide_num path idx = App.fmt02 (idx + 2)) ∧
    App.slide_imgs ["slides/cover.png", "slides/slide_3.png"]
      = ["slides/slide_3.png", "slides/cover.png"] ∧
    App.displayIds ["slides/cover.png", "slides/slide_3.png"] = ["03", "03"] ∧
    App.to_two_digit_slide_num "slides/cover.png" 1 = "03" := by
  refine ⟨?_, by decide, by decide, by decide⟩
  intro path idx h
  have hx : App.extract_slide_number path = 9999 := by
    unfold App.extract_slide_number
    rw [h]
  simp [App.to_two_digit_slide_num, hx]

theorem c7_witness :
    App.to_two_digit_slide_num "slides/cover.png" 5 = App.fmt02 (5 + 2) := by
  have h := c7_fallback_display_id
  exact h.1 "slides/cover.png" 5 (by decide)

/-- C8 counterexample. The claim says every out-of-range index (outside
`[0, len-1]`) signals an `IndexError`-class failure and never silently
returns a value; but Python list subscription accepts negative indices:
`entries[-1]` on a two-element list silently returns the last entry. -/
theorem c8_counterexample :
    App.locate ["slides/slide_1.png", "slides/slide_2.png"] (-1)
      = some "slides/slide_2.png" ∧
    ¬ (0 ≤ (-1 : Int)) := by
  decide

/-- C8 (amended). Locate performs no clamping: for `index` in
`[0, len-1]` it returns the entry at that position; for `index < -len` or
`index ≥ len` it signals an `IndexError`-class failure; but for
`-len ≤ index < 0` it silently returns the entry at `len + index`
(Python's negative indexing), rather than failing. -/
theorem c8_locate_amended (entries : List String) (index : Int) :
    (0 ≤ index → index < (entries.length : Int) →
      App.locate entries index = entries.get? index.toNat ∧
      (App.locate entries index).isSome = true) ∧
    (index < -(entries.length : Int) ∨ (entries.length : Int) ≤ index →
      App.locate entries index = none) ∧
    (-(entries.length : Int) ≤ index → index < 0 →
      App.locate entries index
        = entries.get? ((entries.length : Int) + index).toNat ∧
      (App.locate entries index).isSome = true) := by
  refine ⟨?_, ?_, ?_⟩
  · intro h0 hlen
    have heq : App.locate entries index = entries.get? index.toNat := by
      unfold App.locate
      rw [if_pos ⟨h0, hlen⟩]
    refine ⟨heq, ?_⟩
    rw [heq]
    have hlt : index.toNat < entries.length := by omega
    rw [List.get?_eq_get hlt]
    rfl
  · intro h
    unfold App.locate
    rw [if_neg (by omega), if_neg (by omega)]
  · intro h1 h2
    have heq : App.locate entries index
        = entries.get? ((entries.length : Int) + index).toNat := by
      unfold App.locate
      rw [if_neg (by omega), if_pos ⟨h1, h2⟩]
    refine ⟨heq, ?_⟩
    rw [heq]
    have hlt : ((entries.length : Int) + index).toNat < entries.length := by
      omega
    rw [List.get?_eq_get hlt]
    rfl

theorem c8_witness :
    App.locate ["slides/slide_1.png", "slides/slide_2.png", "slides/slide_3.png"] 1
      = ["slides/slide_1.png", "slides/slide_2.png", "slides/slide_3.png"].get?
          (1 : Int).toNat ∧
    App.locate ["slides/slide_1.png", "slides/slide_2.png", "slides/slide_3.png"] 5
      = none ∧
    App.locate ["slides/slide_1.png", "slides/slide_2.png", "slides/slide_3.png"] (-4)
      = none := by
  have h1 := c8_locate_amended
    ["slides/slide_1.png", "slides/slide_2.png", "slides/slide_3.png"] 1
  have h2 := c8_locate_amended
    ["slides/slide_1.png", "slides/slide_2.png", "slides/slide_3.png"] 5
  have h3 := c8_locate_amended
    ["slides/slide_1.png", "slides/slide_2.png", "slides/slide_3.png"] (-4)
  exact ⟨(h1.1 (by decide) (by decide)).1, h2.2.1 (Or.inr (by decide)),
    h3.2.1 (Or.inl (by decide))⟩

/-- C9. Current-index invariant: with a non-empty slide sequence, the
session index starts at 0 and stays in `[0, len(slide_imgs) - 1]` across
any sequence of interactions — sidebar buttons only assign positions of
existing entries, Prev decrements only when the index is positive, Next
increments only below the last position — so the lookup
`slide_imgs[st.session_state.idx]` never faults. -/
theorem c9_index_invariant (files : List String) (evs : List App.Ev)
    (hne : App.slide_imgs files ≠ [])
    (hnav : ∀ i, App.Ev.navTo i ∈ evs → i < (App.slide_imgs files).length) :
    App.runIdx (App.slide_imgs files).length evs
      < (App.slide_imgs files).length ∧
    ((App.slide_imgs files).get?
      (App.runIdx (App.slide_imgs files).length evs)).isSome = true := by
  have h0 : 0 < (App.slide_imgs files).length := List.length_pos.mpr hne
  have hlt : App.runIdx (App.slide_imgs files).length evs
      < (App.slide_imgs files).length :=
    App.foldl_stepIdx_lt (App.slide_imgs files).length evs 0 h0 hnav
  refine ⟨hlt, ?_⟩
  rw [List.get?_eq_get hlt]
  rfl

theorem c9_witness :
    App.runIdx (App.slide_imgs ["slides/slide_2.png", "slides/slide_1.png"]).length
      [App.Ev.navTo 1, App.Ev.next, App.Ev.prev, App.Ev.prev]
      < (App.slide_imgs ["slides/slide_2.png", "slides/slide_1.png"]).length := by
  have h := c9_index_invariant ["slides/slide_2.png", "slides/slide_1.png"]
    [App.Ev.navTo 1, App.Ev.next, App.Ev.prev, App.Ev.prev]
    (by decide) ?hnav
  · exact h.1
  case hnav =>
    intro i hi
    have hlen : (App.slide_imgs ["slides/slide_2.png", "slides/slide_1.png"]).length
        = 2 := by decide
    rw [hlen]
    simp at hi
    omega

/-- C10. Sentinel collision: the no-digit sentinel ordinal is the concrete
value 9999, so `slide_9999.png` extracts the same ordinal as an un-numbered
resource and is indistinguishable from one — the display id depends only on
the extracted ordinal, `slide_9999.png` sorts among the sentinel entries at
the end, and it receives the positional fallback id (here `"03"`), not
`"9999"`. -/
theorem c10_sentinel_collision :
    App.extract_slide_number "slides/slide_9999.png" = 9999 ∧
    App.extract_slide_number "slides/cover.png" = 9999 ∧
    (∀ (p q : String) (idx : Nat),
      App.extract_slide_number p = App.extract_slide_number q →
      App.to_two_digit_slide_num p idx = App.to_two_digit_slide_num q idx) ∧
    App.slide_imgs ["slides/slide_1.png", "slides/slide_9999.png", "slides/cover.png"]
      = ["slides/slide_1.png", "slides/slide_9999.png", "slides/cover.png"] ∧
    App.displayIds ["slides/slide_1.png", "slides/slide_9999.png", "slides/cover.png"]
      = ["01", "03", "04"] ∧
    App.to_two_digit_slide_num "slides/slide_9999.png" 1 ≠ "9999" := by
  refine ⟨by decide, by decide, ?_, by decide, by decide, by decide⟩
  intro p q idx h
  unfold App.to_two_digit_slide_num
  rw [h]

theorem c10_witness :
    App.to_two_digit_slide_num "slides/slide_9999.png" 3
      = App.to_two_digit_slide_num "slides/cover.png" 3 := by
  have h := c10_sentinel_collision
  exact h.2.2.1 "slides/slide_9999.png" "slides/cover.png" 3 (by decide)

